import Mathlib

/-!
Verification development for the audio alignment and drift-compensation
engine of `video-audio-combiner` (`src/backend/src/video_audio_combiner`).

The pure numerical core of `services/alignment.py` is embedded over exact
rationals (`ℚ` stands in for the Python floats; all arithmetic performed by
the source on measurement and segment data is embedded operation for
operation). File-system and codec behaviour (`librosa.load`,
`librosa.get_duration`, `librosa.onset.onset_strength`) is abstracted as an
explicit environment `Env`, with each service method translated
branch-for-branch from the source.

The compensation planner and renderer (`ffmpeg_service.compensate_audio`)
are called by `api/routes.py` but their implementation is not part of the
sources; those definitions are modelled from the specification (see the
individual doc comments).
-/

deriving instance DecidableEq for Except

namespace VAC

/-- Default analysis sample rate (`AlignmentService.__init__`, 22050 Hz). -/
def sampleRate : ℚ := 22050

/-- Default onset hop length (`AlignmentService.__init__`, 512 samples). -/
def hopLength : ℕ := 512

/-- Alignment result: `AlignResponse` of `api/schemas.py` (offset in ms and
confidence score). -/
structure AlignResponse where
  offset_ms : ℚ
  confidence : ℚ
  deriving DecidableEq

/-- One measurement collected by the drift scan: the tuple
`(position_ms, offset_ms, confidence)` of `detect_drift_points`. -/
structure Measurement where
  pos : ℚ
  off : ℚ
  conf : ℚ
  deriving DecidableEq

/-- `DriftPoint` of `api/schemas.py`. -/
structure DriftPoint where
  timestamp_ms : ℚ
  offset_before_ms : ℚ
  offset_after_ms : ℚ
  confidence : ℚ
  deriving DecidableEq

/-- `AudioSegment` of `api/schemas.py`. -/
structure AudioSegment where
  start_time_ms : ℚ
  end_time_ms : ℚ
  offset_ms : ℚ
  confidence : ℚ
  deriving DecidableEq

/-- Drift detection response: the `drift_points` and `segments` fields of
`DriftDetectionResponse` (the wall-clock `scan_duration_seconds` field is
real time and is not embedded). -/
structure DriftResponse where
  drift_points : List DriftPoint
  segments : List AudioSegment
  deriving DecidableEq

/-- Maximum of a list of rationals, `np.max` on a non-empty array
(`0` for the empty list, where NumPy would raise instead). -/
def listMax : List ℚ → ℚ
  | [] => 0
  | [x] => x
  | x :: y :: xs => max x (listMax (y :: xs))

/-- First index attaining the maximum: the documented semantics of
`np.argmax` ("the indices corresponding to the first occurrence are
returned"); `0` on the empty list. -/
def argmaxIdx : List ℚ → ℕ
  | [] => 0
  | [_] => 0
  | x :: y :: ys => if listMax (y :: ys) ≤ x then 0 else argmaxIdx (y :: ys) + 1

/-- Signed-index lookup with zero padding outside the list. -/
def getI (l : List ℚ) (i : ℤ) : ℚ :=
  if 0 ≤ i then l.getD i.toNat 0 else 0

/-- Full linear cross-correlation, the semantics of
`scipy.signal.correlate(a, v, mode="full")` for 1-D real inputs:
the output has length `len(a) + len(v) - 1` and entry
`c[k] = Σ_j a[j] · v[j + len(v) - 1 - k]`. -/
def corrFull (a v : List ℚ) : List ℚ :=
  (List.range (a.length + v.length - 1)).map fun k : ℕ =>
    ∑ j ∈ Finset.range a.length,
      a.getD j 0 * getI v ((j : ℤ) + (v.length : ℤ) - 1 - (k : ℤ))

/-- Envelope normalization of `detect_alignment` /
`detect_alignment_segment`: divide by the maximum when it is positive,
otherwise leave the envelope unchanged. -/
def normalizeEnv (env : List ℚ) : List ℚ :=
  if 0 < listMax env then env.map (· / listMax env) else env

/-- Arithmetic mean, `np.mean` (`0` on the empty list, where NumPy gives
`nan`). -/
def mean (l : List ℚ) : ℚ := l.sum / l.length

/-- Median, `np.median`: middle element of the sorted list for odd length,
average of the two middle elements for even length (`0` on the empty list,
where NumPy gives `nan`). -/
def median (l : List ℚ) : ℚ :=
  let s := l.insertionSort (· ≤ ·)
  if l.length % 2 = 1 then s.getD (l.length / 2) 0
  else (s.getD (l.length / 2 - 1) 0 + s.getD (l.length / 2) 0) / 2

/-- The cross-correlation alignment core shared by `detect_alignment` and
`detect_alignment_segment` (lines 69-93 and 206-229 of
`services/alignment.py`), starting from the two onset envelopes:
normalize each envelope by its positive maximum, take the full
cross-correlation, convert `argmax - len(secondary) + 1` frames to
milliseconds, and score confidence as `min(1, max/mean(|c|)/10)` when
`mean(|c|) > 0` and `0` otherwise. -/
def detectAlignmentCore (sr : ℚ) (hop : ℚ) (onsetMain onsetSecondary : List ℚ) :
    AlignResponse :=
  let a := normalizeEnv onsetMain
  let v := normalizeEnv onsetSecondary
  let c := corrFull a v
  let lag : ℚ := (argmaxIdx c : ℚ) - (onsetSecondary.length : ℚ) + 1
  let offsetMs := lag * (hop / sr) * 1000
  let meanAbs := mean (c.map fun x => |x|)
  let conf := if 0 < meanAbs then min 1 (listMax c / meanAbs / 10) else 0
  ⟨offsetMs, conf⟩

/-- Drift-point detection loop of `detect_drift_points` (lines 296-315):
for each adjacent pair of measurements emit a `DriftPoint` when the
absolute offset change reaches the threshold. -/
def detectDriftCore (w t : ℚ) : List Measurement → List DriftPoint
  | m₁ :: m₂ :: rest =>
    (if t ≤ |m₂.off - m₁.off| then
      [⟨(m₁.pos + m₂.pos + w) / 2, m₁.off, m₂.off, min m₁.conf m₂.conf⟩]
     else []) ++ detectDriftCore w t (m₂ :: rest)
  | _ => []

/-- The same drift-point detection written as the specification phrases it:
a filter over the list of adjacent measurement pairs. -/
def driftPointsSpec (w t : ℚ) (ms : List Measurement) : List DriftPoint :=
  (ms.zip ms.tail).filterMap fun p =>
    if t ≤ |p.2.off - p.1.off| then
      some ⟨(p.1.pos + p.2.pos + w) / 2, p.1.off, p.2.off, min p.1.conf p.2.conf⟩
    else none

/-- Segment between `segment_start` and a drift point (lines 340-365):
median offset and mean confidence of the measurements whose position lies
in `[segment_start, drift.timestamp_ms)`, falling back to the drift
point's `offset_before_ms` and `confidence` when that bucket is empty. -/
def mkSeg (ms : List Measurement) (segStart : ℚ) (d : DriftPoint) : AudioSegment :=
  let bucket := ms.filter fun m => decide (segStart ≤ m.pos ∧ m.pos < d.timestamp_ms)
  match bucket with
  | [] => ⟨segStart, d.timestamp_ms, d.offset_before_ms, d.confidence⟩
  | _ :: _ =>
    ⟨segStart, d.timestamp_ms, median (bucket.map (·.off)), mean (bucket.map (·.conf))⟩

/-- Final segment after the last drift point (lines 367-387): measurements
with position at or after its timestamp, falling back to
`offset_after_ms` and `confidence`. -/
def finalSeg (ms : List Measurement) (mainDur : ℚ) (d : DriftPoint) : AudioSegment :=
  let bucket := ms.filter fun m => decide (d.timestamp_ms ≤ m.pos)
  match bucket with
  | [] => ⟨d.timestamp_ms, mainDur, d.offset_after_ms, d.confidence⟩
  | _ :: _ =>
    ⟨d.timestamp_ms, mainDur, median (bucket.map (·.off)), mean (bucket.map (·.conf))⟩

/-- The per-drift-point segment walk of `detect_drift_points`
(lines 336-387): one segment per drift point, then the final segment. -/
def segLoop (ms : List Measurement) (mainDur : ℚ) : ℚ → List DriftPoint → List AudioSegment
  | _, [] => []
  | segStart, [d] => [mkSeg ms segStart d, finalSeg ms mainDur d]
  | segStart, d :: d' :: rest =>
    mkSeg ms segStart d :: segLoop ms mainDur d.timestamp_ms (d' :: rest)

/-- Segment synthesis of `detect_drift_points` (lines 317-387): with no
drift points a single full-range segment with median offset and mean
confidence, otherwise the segment walk. -/
def buildSegments (ms : List Measurement) (mainDur w t : ℚ) : List AudioSegment :=
  match detectDriftCore w t ms with
  | [] => [⟨0, mainDur, median (ms.map (·.off)), mean (ms.map (·.conf))⟩]
  | d :: rest => segLoop ms mainDur 0 (d :: rest)

/-- Error kinds surfaced by the align operations. `inputMissing` is the
`FileNotFoundError` the service raises itself; `decodeFailed` is an
exception escaping `librosa.load`; `unsupportedFormat` is the
`UnsupportedFormat` error the specification's error model (§7) attributes
to the core — the embedding carries it so that statements about it can be
made, the source itself never produces it. -/
inductive AlignError where
  | inputMissing
  | decodeFailed
  | unsupportedFormat
  deriving DecidableEq

/-- Outcome of one `librosa.load` call: either a decoded mono sample
buffer at the analysis rate, or an exception. -/
inductive LoadResult where
  | ok (samples : List ℚ)
  | failed
  deriving DecidableEq

/-- Abstraction of everything the alignment service observes about the
outside world: file existence (`Path.exists`), probed duration in seconds
(`librosa.get_duration`), windowed decoding
(`librosa.load(offset=start_s, duration=dur_s)` — per the loader contract
a range past EOF comes back silently truncated or empty, so emptiness is
visible only through the returned buffer), full-file decoding
(`librosa.load` with no range), decode status of each file
(`conformant` records whether the underlying file is RIFF WAV PCM s16le
mono 22050 Hz; no source code path ever reads it), and the onset-strength
transform (`librosa.onset.onset_strength`). -/
structure Env where
  fileExists : String → Bool
  durationS : String → ℚ
  load : String → ℚ → ℚ → LoadResult
  loadFull : String → LoadResult
  conformant : String → Bool
  onset : List ℚ → List ℚ

/-- `AlignmentService.detect_alignment` (lines 31-93): existence checks,
full decode of both files, onset envelopes, then the correlation core.
There is no format check and no short-buffer guard in this method. -/
def detectAlignmentM (env : Env) (main sec : String) : Except AlignError AlignResponse :=
  if env.fileExists main = false then .error .inputMissing
  else if env.fileExists sec = false then .error .inputMissing
  else
    match env.loadFull main, env.loadFull sec with
    | .failed, _ => .error .decodeFailed
    | _, .failed => .error .decodeFailed
    | .ok yMain, .ok ySec =>
      .ok (detectAlignmentCore sampleRate hopLength (env.onset yMain) (env.onset ySec))

/-- `AlignmentService.detect_alignment_segment` (lines 146-229): existence
checks, windowed decode of `[start_ms, end_ms)` of both files (converted
to seconds), short-circuit to `{0, 0}` when either buffer has fewer than
`2 * hop_length` samples, otherwise the correlation core. A decode
exception is not caught and propagates. -/
def detectAlignmentSegmentM (env : Env) (main sec : String)
    (startMs endMs : ℚ) : Except AlignError AlignResponse :=
  if env.fileExists main = false then .error .inputMissing
  else if env.fileExists sec = false then .error .inputMissing
  else
    let startS := startMs / 1000
    let durS := (endMs - startMs) / 1000
    match env.load main startS durS, env.load sec startS durS with
    | .failed, _ => .error .decodeFailed
    | _, .failed => .error .decodeFailed
    | .ok yMain, .ok ySec =>
      if yMain.length < 2 * hopLength ∨ ySec.length < 2 * hopLength then
        .ok ⟨0, 0⟩
      else
        .ok (detectAlignmentCore sampleRate hopLength (env.onset yMain) (env.onset ySec))

/-- The `while position_ms + segment_duration_ms <= main_duration_ms`
loop of `detect_drift_points` (lines 276-285), with an explicit fuel so
the translation stays total even for the step sizes on which the source
loop never exits: the list of window start positions, or `none` when the
fuel runs out before the loop condition turns false. -/
def scanPositionsFuel (mainDur w s : ℚ) : ℕ → ℚ → Option (List ℚ)
  | 0, pos => if pos + w ≤ mainDur then none else some []
  | n + 1, pos =>
    if pos + w ≤ mainDur then (scanPositionsFuel mainDur w s n (pos + s)).map (pos :: ·)
    else some []

/-- Fuel sufficient for the scan loop whenever the step is at least 1 ms
(`step_ms` is an `int` in the request schema, so positive means `≥ 1`). -/
def fuelBound (mainDur w : ℚ) : ℕ := Nat.ceil (mainDur - w) + 1

/-- Window start positions of the drift scan. -/
def scanPositions (mainDur w s : ℚ) : List ℚ :=
  (scanPositionsFuel mainDur w s (fuelBound mainDur w) 0).getD []

/-- Effectful map over a list in the `Except` monad, the shape of a Python
loop whose body may raise: the first error aborts and propagates. -/
def mapExcept (f : α → Except ε β) : List α → Except ε (List β)
  | [] => .ok []
  | a :: as =>
    match f a with
    | .error e => .error e
    | .ok b =>
      match mapExcept f as with
      | .error e => .error e
      | .ok bs => .ok (b :: bs)

/-- One iteration of the measurement loop: align the window starting at
`p` and record `(position_ms, offset_ms, confidence)`. -/
def measureAt (env : Env) (main sec : String) (w p : ℚ) :
    Except AlignError Measurement :=
  match detectAlignmentSegmentM env main sec p (p + w) with
  | .error e => .error e
  | .ok r => .ok ⟨p, r.offset_ms, r.confidence⟩

/-- `AlignmentService.detect_drift_points` (lines 231-395): existence
checks, probe the main duration, collect one measurement per window
(any exception in a window aborts the whole scan, as in the source, which
wraps nothing in `try`), return empty lists when there are no
measurements, otherwise the drift points and the synthesized segments. -/
def detectDriftPointsModel (env : Env) (main sec : String) (w s t : ℚ) :
    Except AlignError DriftResponse :=
  if env.fileExists main = false then .error .inputMissing
  else if env.fileExists sec = false then .error .inputMissing
  else
    let mainDur := 1000 * env.durationS main
    match mapExcept (measureAt env main sec w) (scanPositions mainDur w s) with
    | .error e => .error e
    | .ok ms =>
      if ms = [] then .ok ⟨[], []⟩
      else .ok ⟨detectDriftCore w t ms, buildSegments ms mainDur w t⟩

/-- Edit operation of the compensation plan (spec §3 `EditPlan`): copy a
source range of the secondary audio, or insert silence. -/
inductive EditOp where
  | copyRange (src_start_ms src_end_ms : ℚ)
  | silence (duration_ms : ℚ)
  deriving DecidableEq

/-- Planner failure (spec §7): compensation would require trimming more
content than exists between two boundaries. -/
inductive PlanError where
  | planInfeasible (boundary : ℚ)
  deriving DecidableEq

/-- Duration contributed by one edit operation. -/
def opDuration : EditOp → ℚ
  | .copyRange s e => e - s
  | .silence d => d

/-- Modelled from the spec: total duration of the audio produced by the
edit-plan renderer (`ffmpeg_service.compensate_audio` is called from
`api/routes.py` but is absent from the sources). Spec §3 fixes the
renderer's externally visible duration: "executing the plan yields an
output whose total duration is exactly `Σ op.duration_ms`". -/
def renderedDurationMs (ops : List EditOp) : ℚ := (ops.map opDuration).sum

/-- Modelled from the spec: boundary walk of the compensation planner
(§4.F, the implementation `ffmpeg_service.compensate_audio` is absent from
the sources). State is the source cursor `c` and the cumulative applied
adjustment `a`; `prev` is the previous segment and `segs` the remaining
ones. For each boundary `curr.start_time_ms`, the copied region is
`[c, curr.start_time_ms - a)`; a non-positive copy makes the plan
infeasible at that boundary; `adjust = prev.offset_ms - curr.offset_ms`
inserts silence when positive and skips `|adjust|` of source when
negative. After the last boundary the tail `[c, secondaryDur)` is copied
(infeasible at boundary `secondaryDur` when empty or negative). -/
def planRec : ℚ → ℚ → ℚ → AudioSegment → List AudioSegment →
    Except PlanError (List EditOp)
  | c, _, secondaryDur, _, [] =>
    if secondaryDur ≤ c then .error (.planInfeasible secondaryDur)
    else .ok [.copyRange c secondaryDur]
  | c, a, secondaryDur, prev, curr :: rest =>
    let copyEnd := curr.start_time_ms - a
    if copyEnd ≤ c then .error (.planInfeasible curr.start_time_ms)
    else
      let adjust := prev.offset_ms - curr.offset_ms
      let cNext := if adjust < 0 then copyEnd - adjust else copyEnd
      match planRec cNext (a + adjust) secondaryDur curr rest with
      | .error e => .error e
      | .ok ops =>
        .ok (.copyRange c copyEnd ::
          ((if 0 < adjust then [.silence adjust] else []) ++ ops))

/-- Modelled from the spec: the copied ranges the §4.F cursor walk commits
to, with no feasibility check, each tagged with its boundary — used to
state when the checked planner must fail. Entries are
`(boundary, src_start, src_end)`. -/
def planCopies : ℚ → ℚ → ℚ → AudioSegment → List AudioSegment →
    List (ℚ × ℚ × ℚ)
  | c, _, secondaryDur, _, [] => [(secondaryDur, c, secondaryDur)]
  | c, a, secondaryDur, prev, curr :: rest =>
    let copyEnd := curr.start_time_ms - a
    let adjust := prev.offset_ms - curr.offset_ms
    let cNext := if adjust < 0 then copyEnd - adjust else copyEnd
    (curr.start_time_ms, c, copyEnd) :: planCopies cNext (a + adjust) secondaryDur curr rest

/-- Defensive sort of the planner's input segments by start time
(spec §4.F: "planner sorts defensively"). -/
def sortSegs (segs : List AudioSegment) : List AudioSegment :=
  segs.insertionSort fun x y => x.start_time_ms ≤ y.start_time_ms

/-- Modelled from the spec: the compensation planner `plan(segments)`
(§4.F; `ffmpeg_service.compensate_audio` is absent from the sources).
Fewer than two segments yield the trivial plan
`[CopyRange(0, main_duration_ms)]`; otherwise the sorted segments are
walked boundary by boundary from cursor 0. -/
def planEdit (segs : List AudioSegment) (mainDur secondaryDur : ℚ) :
    Except PlanError (List EditOp) :=
  match sortSegs segs with
  | [] => .ok [.copyRange 0 mainDur]
  | [_] => .ok [.copyRange 0 mainDur]
  | first :: next :: rest => planRec 0 0 secondaryDur first (next :: rest)

/-- Checks that a segment list is a contiguous chain: the first segment
starts at `start`, each segment ends where the next begins, and the last
segment ends at `mainDur`. `false` on the empty list. -/
def chainFromB (start mainDur : ℚ) : List AudioSegment → Bool
  | [] => false
  | [seg] => decide (seg.start_time_ms = start) && decide (seg.end_time_ms = mainDur)
  | seg :: next :: rest =>
    decide (seg.start_time_ms = start) && decide (seg.end_time_ms = next.start_time_ms) &&
      chainFromB next.start_time_ms mainDur (next :: rest)

/-- Contiguity invariant of spec §3 for a segment list over
`[0, mainDur)`. -/
def contiguousB (segs : List AudioSegment) (mainDur : ℚ) : Bool :=
  chainFromB 0 mainDur segs

/-- Whether an align operation outcome is an `UnsupportedFormat`
rejection. -/
def isUnsupported : Except AlignError α → Bool
  | .error .unsupportedFormat => true
  | _ => false

/-- Modelled from the spec: the copy ranges committed by the whole
planner, with no feasibility check, each tagged with its boundary
(§4.F; `ffmpeg_service.compensate_audio` is absent from the sources). -/
def plannedCopies (segs : List AudioSegment) (mainDur secondaryDur : ℚ) :
    List (ℚ × ℚ × ℚ) :=
  match sortSegs segs with
  | [] => [(mainDur, 0, mainDur)]
  | [_] => [(mainDur, 0, mainDur)]
  | first :: next :: rest => planCopies 0 0 secondaryDur first (next :: rest)

/-- Concrete environment for two silent five-second files: both decode,
and the onset transform returns the all-zero three-frame envelope a
silent signal produces (spec §4.B: an all-zero envelope stays all-zero). -/
def envZ : Env where
  fileExists := fun _ => true
  durationS := fun _ => 5
  load := fun _ _ _ => .ok [0, 0, 0, 0]
  loadFull := fun _ => .ok [0, 0, 0, 0]
  conformant := fun _ => true
  onset := fun _ => [0, 0, 0]

/-- Concrete environment in which the secondary file is not in the
analysis format (not RIFF WAV PCM s16le mono 22050 Hz) yet decodes fine,
as `librosa.load` does for any decodable input. -/
def envN : Env where
  fileExists := fun _ => true
  durationS := fun _ => 1
  load := fun _ _ _ => .ok [1]
  loadFull := fun _ => .ok [1]
  conformant := fun p => decide (p ≠ "s")
  onset := fun _ => [1]

/-- Concrete environment whose windowed decode raises on the window
starting at 1 ms (start second `1/1000`) and returns an empty buffer
elsewhere; the probed main duration is 4 ms. -/
def envC8 : Env where
  fileExists := fun _ => true
  durationS := fun _ => 1 / 250
  load := fun _ st _ => if st = 1 / 1000 then .failed else .ok []
  loadFull := fun _ => .ok []
  conformant := fun _ => true
  onset := fun l => l

/-- Concrete environment with a 2 ms main duration whose windowed decodes
all come back empty (so every window short-circuits to `{0, 0}`). -/
def envW4 : Env where
  fileExists := fun _ => true
  durationS := fun _ => 1 / 500
  load := fun _ _ _ => .ok []
  loadFull := fun _ => .ok []
  conformant := fun _ => true
  onset := fun l => l

theorem listMax_cons_cons (x y : ℚ) (ys : List ℚ) :
    listMax (x :: y :: ys) = max x (listMax (y :: ys)) := rfl

theorem getD_le_listMax : ∀ (l : List ℚ) (j : ℕ), j < l.length → l.getD j 0 ≤ listMax l
  | [x], 0, _ => le_refl x
  | x :: y :: ys, 0, _ => by rw [listMax_cons_cons]; exact le_max_left _ _
  | x :: y :: ys, j + 1, h => by
    rw [listMax_cons_cons, List.getD_cons_succ]
    exact le_trans (getD_le_listMax (y :: ys) j (by simpa using h)) (le_max_right _ _)

theorem getD_argmaxIdx : ∀ (l : List ℚ), l ≠ [] → l.getD (argmaxIdx l) 0 = listMax l
  | [x], _ => rfl
  | x :: y :: ys, _ => by
    rw [argmaxIdx, listMax_cons_cons]
    split
    · next h => rw [List.getD_cons_zero, max_eq_left h]
    · next h =>
      have ih := getD_argmaxIdx (y :: ys) (by simp)
      have hle : x ≤ listMax (y :: ys) := le_of_not_le h
      rw [List.getD_cons_succ, ih, max_eq_right hle]

theorem argmaxIdx_first : ∀ (l : List ℚ) (j : ℕ), j < argmaxIdx l → l.getD j 0 < listMax l
  | [x], j, h => by simp [argmaxIdx] at h
  | x :: y :: ys, j, h => by
    rw [argmaxIdx] at h
    split at h
    · exact absurd h (Nat.not_lt_zero j)
    · next hx =>
      rw [listMax_cons_cons]
      have hx' : x < listMax (y :: ys) := lt_of_not_le hx
      match j with
      | 0 => rw [List.getD_cons_zero, max_eq_right hx'.le]; exact hx'
      | j + 1 =>
        have ih := argmaxIdx_first (y :: ys) j (Nat.lt_of_succ_lt_succ h)
        rw [List.getD_cons_succ, max_eq_right hx'.le]
        exact ih

theorem listMax_of_allZero : ∀ (l : List ℚ), (∀ x ∈ l, x = 0) → listMax l = 0
  | [], _ => rfl
  | [x], h => h x (by simp)
  | x :: y :: ys, h => by
    rw [listMax_cons_cons, listMax_of_allZero (y :: ys) (fun z hz => h z (by simp [hz]))]
    rw [h x (by simp)]
    exact max_self 0

theorem getD_of_allZero : ∀ (l : List ℚ), (∀ x ∈ l, x = 0) → ∀ (j : ℕ), l.getD j 0 = 0
  | [], _, j => by simp
  | x :: xs, h, 0 => h x (by simp)
  | x :: xs, h, j + 1 => by
    rw [List.getD_cons_succ]
    exact getD_of_allZero xs (fun z hz => h z (by simp [hz])) j

theorem normalizeEnv_of_allZero (l : List ℚ) (h : ∀ x ∈ l, x = 0) :
    normalizeEnv l = l := by
  rw [normalizeEnv, listMax_of_allZero l h, if_neg (lt_irrefl 0)]

theorem corrFull_of_allZero (a v : List ℚ) (ha : ∀ x ∈ a, x = 0) :
    ∀ x ∈ corrFull a v, x = 0 := by
  intro x hx
  rw [corrFull] at hx
  obtain ⟨k, _, rfl⟩ := List.mem_map.mp hx
  exact Finset.sum_eq_zero fun j _ => by rw [getD_of_allZero a ha j, zero_mul]

theorem argmaxIdx_of_allZero : ∀ (l : List ℚ), (∀ x ∈ l, x = 0) → argmaxIdx l = 0
  | [], _ => rfl
  | [x], _ => rfl
  | x :: y :: ys, h => by
    rw [argmaxIdx, if_pos]
    rw [listMax_of_allZero (y :: ys) (fun z hz => h z (by simp [hz])), h x (by simp)]

theorem corrFull_length (a v : List ℚ) :
    (corrFull a v).length = a.length + v.length - 1 := by
  rw [corrFull, List.length_map, List.length_range]

theorem normalizeEnv_length (l : List ℚ) : (normalizeEnv l).length = l.length := by
  rw [normalizeEnv]
  split <;> simp

/-- Claim C2, counterexample: for two pure-silence inputs whose onset
envelopes are all-zero with three frames, `detect_alignment` does not
return `{offset_ms: 0, confidence: 0}`: the confidence is 0 but the
offset is `(1 - 3) * (512 / 22050) * 1000 = -20480/441 ≈ -46.4` ms,
because `np.argmax` of the all-zero correlation returns index 0. -/
theorem claim2_counterexample :
    detectAlignmentM envZ "m" "s" = .ok ⟨-20480 / 441, 0⟩ ∧ (-20480 / 441 : ℚ) ≠ 0 := by
  constructor
  · have h1 : detectAlignmentM envZ "m" "s" =
        .ok (detectAlignmentCore sampleRate hopLength [0, 0, 0] [0, 0, 0]) := rfl
    rw [h1]
    norm_num [detectAlignmentCore, sampleRate, hopLength, normalizeEnv, listMax, corrFull,
      getI, argmaxIdx, mean, List.range_succ, Finset.sum_range_succ]
  · norm_num

/-- Claim C2, amended: when both onset envelopes are non-empty and
all-zero, the alignment core returns confidence 0, but the offset is
`(1 - M) * (hop / sr) * 1000` where `M` is the secondary envelope length
(the first index of the all-zero correlation is taken as the argmax);
the offset is 0 only when `M = 1`. -/
theorem claim2_degenerate_amended (sr hop : ℚ) (envMain envSec : List ℚ)
    (hM : ∀ x ∈ envMain, x = 0) (hS : ∀ x ∈ envSec, x = 0)
    (_hMne : envMain ≠ []) (_hSne : envSec ≠ []) :
    detectAlignmentCore sr hop envMain envSec =
      ⟨(1 - (envSec.length : ℚ)) * (hop / sr) * 1000, 0⟩ := by
  have hc : ∀ x ∈ corrFull envMain envSec, x = 0 := corrFull_of_allZero _ _ hM
  simp only [detectAlignmentCore, normalizeEnv_of_allZero _ hM, normalizeEnv_of_allZero _ hS]
  have harg : argmaxIdx (corrFull envMain envSec) = 0 := argmaxIdx_of_allZero _ hc
  have habs : ∀ x ∈ (corrFull envMain envSec).map (fun x => |x|), x = 0 := by
    intro x hx
    obtain ⟨y, hy, rfl⟩ := List.mem_map.mp hx
    rw [hc y hy, abs_zero]
  have hmean : mean ((corrFull envMain envSec).map fun x => |x|) = 0 := by
    rw [mean, List.sum_eq_zero habs, zero_div]
  rw [harg, hmean]
  norm_num
  exact Or.inl (by ring)

/-- Witness for claim C2's amended theorem at concrete all-zero
two-frame envelopes. -/
theorem claim2_degenerate_witness :
    detectAlignmentCore 22050 512 [0, 0] [0, 0] =
      ⟨(1 - ((([0, 0] : List ℚ).length : ℚ))) * (512 / 22050) * 1000, 0⟩ :=
  claim2_degenerate_amended 22050 512 [0, 0] [0, 0] (by simp) (by simp) (by simp) (by simp)

/-- Claim C5: the offset returned by the alignment core is
`(k* - (M - 1)) * (hop / sr) * 1000` where `k*` is the argmax of the
full linear cross-correlation of the two normalized envelopes and `M`
the secondary envelope length; among tied maxima the smallest index
(hence the smallest `|k*|`, then the smallest `k*`) is chosen: every
entry is at most the entry at `k*`, and an entry equal to it cannot sit
at a smaller index. -/
theorem claim5_offset_formula (sr hop : ℚ) (envMain envSec : List ℚ) (j : ℕ)
    (hj : j < (corrFull (normalizeEnv envMain) (normalizeEnv envSec)).length) :
    (detectAlignmentCore sr hop envMain envSec).offset_ms =
      ((argmaxIdx (corrFull (normalizeEnv envMain) (normalizeEnv envSec)) : ℚ)
        - ((envSec.length : ℚ) - 1)) * (hop / sr) * 1000
    ∧ (corrFull (normalizeEnv envMain) (normalizeEnv envSec)).getD j 0 ≤
        (corrFull (normalizeEnv envMain) (normalizeEnv envSec)).getD
          (argmaxIdx (corrFull (normalizeEnv envMain) (normalizeEnv envSec))) 0
    ∧ ((corrFull (normalizeEnv envMain) (normalizeEnv envSec)).getD j 0 =
        (corrFull (normalizeEnv envMain) (normalizeEnv envSec)).getD
          (argmaxIdx (corrFull (normalizeEnv envMain) (normalizeEnv envSec))) 0 →
        argmaxIdx (corrFull (normalizeEnv envMain) (normalizeEnv envSec)) ≤ j) := by
  have hne : corrFull (normalizeEnv envMain) (normalizeEnv envSec) ≠ [] := by
    intro h
    rw [h] at hj
    exact absurd hj (by simp)
  refine ⟨?_, ?_, ?_⟩
  · simp only [detectAlignmentCore]
    ring
  · rw [getD_argmaxIdx _ hne]
    exact getD_le_listMax _ j hj
  · intro heq
    by_contra hlt
    push_neg at hlt
    have := argmaxIdx_first _ j hlt
    rw [← getD_argmaxIdx _ hne] at this
    exact absurd heq (ne_of_lt this)

/-- Witness for claim C5 at envelopes `[1, 0]` and `[0, 1]`, index 0. -/
theorem claim5_offset_formula_witness :
    (detectAlignmentCore 22050 512 [1, 0] [0, 1]).offset_ms =
      ((argmaxIdx (corrFull (normalizeEnv [1, 0]) (normalizeEnv [0, 1])) : ℚ)
        - ((([0, 1] : List ℚ).length : ℚ) - 1)) * (512 / 22050) * 1000
    ∧ (corrFull (normalizeEnv [1, 0]) (normalizeEnv [0, 1])).getD 0 0 ≤
        (corrFull (normalizeEnv [1, 0]) (normalizeEnv [0, 1])).getD
          (argmaxIdx (corrFull (normalizeEnv [1, 0]) (normalizeEnv [0, 1]))) 0
    ∧ ((corrFull (normalizeEnv [1, 0]) (normalizeEnv [0, 1])).getD 0 0 =
        (corrFull (normalizeEnv [1, 0]) (normalizeEnv [0, 1])).getD
          (argmaxIdx (corrFull (normalizeEnv [1, 0]) (normalizeEnv [0, 1]))) 0 →
        argmaxIdx (corrFull (normalizeEnv [1, 0]) (normalizeEnv [0, 1])) ≤ 0) :=
  claim5_offset_formula 22050 512 [1, 0] [0, 1] 0
    (by rw [corrFull_length, normalizeEnv_length, normalizeEnv_length]; norm_num)

/-- Claim C3: the drift-point loop of `detect_drift_points` emits, for
each adjacent measurement pair and only for pairs whose absolute offset
change reaches the threshold, exactly the `DriftPoint` with timestamp
`(prev.start + curr.start + window_ms) / 2`, the two offsets verbatim,
and the minimum of the two confidences — it equals the filter over
adjacent pairs that the specification describes. -/
theorem claim3_driftpoint_characterization (w t : ℚ) : ∀ (ms : List Measurement),
    detectDriftCore w t ms = driftPointsSpec w t ms
  | [] => rfl
  | [m] => rfl
  | m₁ :: m₂ :: rest => by
    rw [detectDriftCore, claim3_driftpoint_characterization w t (m₂ :: rest)]
    rw [driftPointsSpec, driftPointsSpec]
    simp only [List.tail_cons, List.zip_cons_cons, List.filterMap_cons]
    split
    · simp
    · simp

/-- Claim C6: with the same measurements and window, every drift point
produced at a higher threshold is also produced at a lower threshold
(threshold monotonicity, subset as list membership). -/
theorem claim6_threshold_monotone (w t₁ t₂ : ℚ) (ht : t₁ ≤ t₂) : ∀ (ms : List Measurement),
    ∀ d ∈ detectDriftCore w t₂ ms, d ∈ detectDriftCore w t₁ ms
  | [] => by simp [detectDriftCore]
  | [m] => by simp [detectDriftCore]
  | m₁ :: m₂ :: rest => by
    intro d hd
    rw [detectDriftCore] at hd ⊢
    rw [List.mem_append] at hd ⊢
    rcases hd with hd | hd
    · left
      split at hd
      · next h => rw [if_pos (le_trans ht h)]; exact hd
      · exact absurd hd (by simp)
    · right
      exact claim6_threshold_monotone w t₁ t₂ ht (m₂ :: rest) d hd

/-- Witness for claim C6 at thresholds 1 ≤ 2 over a concrete
measurement list with a jump of 5. -/
theorem claim6_threshold_monotone_witness :
    ((1 : ℚ) ≤ 2)
    ∧ ∀ d ∈ detectDriftCore 10 2 [⟨0, 0, 1⟩, ⟨1, 5, 1⟩],
        d ∈ detectDriftCore 10 1 [⟨0, 0, 1⟩, ⟨1, 5, 1⟩] :=
  ⟨by norm_num, claim6_threshold_monotone 10 1 2 (by norm_num) [⟨0, 0, 1⟩, ⟨1, 5, 1⟩]⟩

theorem mkSeg_start (ms : List Measurement) (segStart : ℚ) (d : DriftPoint) :
    (mkSeg ms segStart d).start_time_ms = segStart := by
  rw [mkSeg]
  split <;> rfl

theorem mkSeg_end (ms : List Measurement) (segStart : ℚ) (d : DriftPoint) :
    (mkSeg ms segStart d).end_time_ms = d.timestamp_ms := by
  rw [mkSeg]
  split <;> rfl

theorem finalSeg_start (ms : List Measurement) (mainDur : ℚ) (d : DriftPoint) :
    (finalSeg ms mainDur d).start_time_ms = d.timestamp_ms := by
  rw [finalSeg]
  split <;> rfl

theorem finalSeg_end (ms : List Measurement) (mainDur : ℚ) (d : DriftPoint) :
    (finalSeg ms mainDur d).end_time_ms = mainDur := by
  rw [finalSeg]
  split <;> rfl

theorem segLoop_chain (ms : List Measurement) (mainDur : ℚ) :
    ∀ (dps : List DriftPoint) (segStart : ℚ), dps ≠ [] →
      chainFromB segStart mainDur (segLoop ms mainDur segStart dps) = true
  | [], _, h => absurd rfl h
  | [d], segStart, _ => by
    rw [segLoop, chainFromB]
    simp [mkSeg_start, mkSeg_end, finalSeg_start, finalSeg_end, chainFromB]
  | d :: d' :: rest, segStart, _ => by
    rw [segLoop]
    have ih := segLoop_chain ms mainDur (d' :: rest) d.timestamp_ms (by simp)
    match rest with
    | [] =>
      rw [segLoop] at ih ⊢
      rw [chainFromB]
      simp only [mkSeg_start, mkSeg_end, finalSeg_start, finalSeg_end] at ih ⊢
      simp [ih, chainFromB, finalSeg_start, finalSeg_end, mkSeg_start, mkSeg_end]
    | r :: rs =>
      rw [segLoop] at ih ⊢
      rw [chainFromB]
      simp only [mkSeg_start, mkSeg_end] at ih ⊢
      simp [ih, mkSeg_start, mkSeg_end]

theorem buildSegments_contiguous (ms : List Measurement) (mainDur w t : ℚ) :
    contiguousB (buildSegments ms mainDur w t) mainDur = true := by
  rw [contiguousB, buildSegments]
  split
  · simp [chainFromB]
  · next d rest heq =>
    exact segLoop_chain ms mainDur (d :: rest) 0 (by simp)

/-- Claim C4: every non-empty segment list returned by the drift
detector is contiguous — the first segment starts at 0, each segment
ends where the next begins, and the last segment ends at the probed
main duration. -/
theorem claim4_segments_contiguous (env : Env) (main sec : String) (w s t : ℚ)
    (resp : DriftResponse)
    (hok : detectDriftPointsModel env main sec w s t = .ok resp)
    (hne : resp.segments ≠ []) :
    contiguousB resp.segments (1000 * env.durationS main) = true := by
  simp only [detectDriftPointsModel] at hok
  split at hok
  · exact absurd hok (by simp)
  · split at hok
    · exact absurd hok (by simp)
    · split at hok
      · exact absurd hok (by simp)
      · next ms hms =>
        split at hok
        · rw [Except.ok.injEq] at hok
          subst hok
          exact absurd rfl hne
        · rw [Except.ok.injEq] at hok
          subst hok
          exact buildSegments_contiguous ms (1000 * env.durationS main) w t

theorem envW4_drift_eval :
    detectDriftPointsModel envW4 "m" "s" 2 1 1 = .ok ⟨[], [⟨0, 2, 0, 0⟩]⟩ := by
  have hpos : scanPositions (1000 * envW4.durationS "m") 2 1 = [0] := by
    norm_num [scanPositions, fuelBound, scanPositionsFuel, envW4]
  rw [detectDriftPointsModel, if_neg (by simp [envW4]), if_neg (by simp [envW4])]
  simp only [hpos]
  have hm0 : measureAt envW4 "m" "s" 2 0 = .ok ⟨0, 0, 0⟩ := by
    rw [measureAt, detectAlignmentSegmentM]
    norm_num [envW4, hopLength]
  rw [mapExcept, hm0]
  simp only [mapExcept]
  rw [if_neg (by simp)]
  have hdur : (1000 : ℚ) * envW4.durationS "m" = 2 := by norm_num [envW4]
  rw [hdur]
  norm_num [detectDriftCore, buildSegments, median, mean, List.insertionSort]

/-- Witness for claim C4 on a concrete scan producing the single
segment `[0, 2)`. -/
theorem claim4_segments_contiguous_witness :
    contiguousB [⟨0, 2, 0, 0⟩] (1000 * envW4.durationS "m") = true :=
  claim4_segments_contiguous envW4 "m" "s" 2 1 1 ⟨[], [⟨0, 2, 0, 0⟩]⟩
    envW4_drift_eval (by simp)

theorem scanPositionsFuel_isSome (mainDur w s : ℚ) (hs : 1 ≤ s) :
    ∀ (n : ℕ) (pos : ℚ), mainDur - w - pos ≤ (n : ℚ) →
      (scanPositionsFuel mainDur w s (n + 1) pos).isSome = true
  | 0, pos, hb => by
    rw [scanPositionsFuel]
    split
    · next hc =>
      rw [scanPositionsFuel, if_neg (by push_cast at hb; intro hcon; linarith)]
      simp
    · simp
  | n + 1, pos, hb => by
    rw [scanPositionsFuel]
    split
    · next hc =>
      have ih := scanPositionsFuel_isSome mainDur w s hs n (pos + s)
        (by push_cast at hb ⊢; linarith)
      simpa using ih
    · simp

theorem scanPositionsFuel_zero_step (mainDur w : ℚ) (hw : 0 + w ≤ mainDur) :
    ∀ (n : ℕ), scanPositionsFuel mainDur w 0 n 0 = none
  | 0 => by rw [scanPositionsFuel, if_pos hw]
  | n + 1 => by
    rw [scanPositionsFuel, if_pos hw, add_zero]
    rw [scanPositionsFuel_zero_step mainDur w hw n]
    rfl

/-- Claim C10: the measurement-collection loop of `detect_drift_points`
terminates whenever `step_ms ≥ 1` (the fuel `fuelBound` always suffices,
for any window size and main duration), and positivity of the step is an
unchecked precondition: with `step_ms = 0` and at least one window
fitting, no amount of fuel makes the loop condition turn false — the
source loop never exits. -/
theorem claim10_scan_terminates (mainDur w s : ℚ) :
    (1 ≤ s → (scanPositionsFuel mainDur w s (fuelBound mainDur w) 0).isSome = true)
    ∧ (s = 0 → 0 + w ≤ mainDur → ∀ n, scanPositionsFuel mainDur w s n 0 = none) := by
  constructor
  · intro hs
    rw [fuelBound]
    exact scanPositionsFuel_isSome mainDur w s hs (Nat.ceil (mainDur - w)) 0
      (by rw [sub_zero]; exact Nat.le_ceil _)
  · intro hs hw n
    subst hs
    exact scanPositionsFuel_zero_step mainDur w hw n

/-- Witness for claim C10: a 4 ms scan with 2 ms windows terminates at
step 1 and diverges at step 0. -/
theorem claim10_scan_terminates_witness :
    (scanPositionsFuel 4 2 1 (fuelBound 4 2) 0).isSome = true
    ∧ scanPositionsFuel 4 2 0 5 0 = none :=
  ⟨(claim10_scan_terminates 4 2 1).1 (by norm_num),
   (claim10_scan_terminates 4 2 0).2 rfl (by norm_num) 5⟩

theorem mapExcept_error_mem {α β ε : Type} (f : α → Except ε β) :
    ∀ (l : List α) (e : ε), mapExcept f l = .error e → ∃ a ∈ l, f a = .error e
  | [], e => by rw [mapExcept]; intro h; exact absurd h (by simp)
  | a :: as, e => by
    rw [mapExcept]
    cases hfa : f a with
    | error e1 =>
      intro h
      injection h with h
      subst h
      exact ⟨a, by simp, hfa⟩
    | ok b =>
      cases hrec : mapExcept f as with
      | error e2 =>
        intro h
        injection h with h
        subst h
        obtain ⟨x, hx, hfx⟩ := mapExcept_error_mem f as e2 hrec
        exact ⟨x, by simp [hx], hfx⟩
      | ok bs => intro h; exact absurd h (by simp)

theorem mapExcept_ok_of_forall {α β ε : Type} (f : α → Except ε β) :
    ∀ (l : List α), (∀ a ∈ l, ∃ b, f a = .ok b) → ∃ bs, mapExcept f l = .ok bs
  | [], _ => ⟨[], rfl⟩
  | a :: as, h => by
    obtain ⟨b, hb⟩ := h a (by simp)
    obtain ⟨bs, hbs⟩ := mapExcept_ok_of_forall f as (fun x hx => h x (by simp [hx]))
    exact ⟨b :: bs, by rw [mapExcept, hb, hbs]⟩

theorem segM_error_kind (env : Env) (main sec : String) (startMs endMs : ℚ)
    (e : AlignError) (h : detectAlignmentSegmentM env main sec startMs endMs = .error e) :
    e = .inputMissing ∨ e = .decodeFailed := by
  rw [detectAlignmentSegmentM] at h
  split at h
  · injection h with h; exact Or.inl h.symm
  · split at h
    · injection h with h; exact Or.inl h.symm
    · simp only [] at h
      split at h
      · injection h with h; exact Or.inr h.symm
      · injection h with h; exact Or.inr h.symm
      · split at h
        · exact absurd h (by simp)
        · exact absurd h (by simp)

theorem segM_not_unsupported (env : Env) (main sec : String) (startMs endMs : ℚ) :
    isUnsupported (detectAlignmentSegmentM env main sec startMs endMs) = false := by
  cases h : detectAlignmentSegmentM env main sec startMs endMs with
  | error e =>
    rcases segM_error_kind env main sec startMs endMs e h with rfl | rfl <;> rfl
  | ok r => rfl

/-- Claim C8, counterexample: in a scan over windows starting at 0 ms,
1 ms and 2 ms, a decode failure in the window starting at 1 ms is not
absorbed as a `{0, 0}` measurement — it aborts the whole scan with the
decode error, because the source wraps no window in a `try`. -/
theorem claim8_counterexample :
    detectDriftPointsModel envC8 "m" "s" 2 1 1 = .error .decodeFailed := by
  have hpos : scanPositions (1000 * envC8.durationS "m") 2 1 = [0, 1, 2] := by
    norm_num [scanPositions, fuelBound, scanPositionsFuel, envC8]
  rw [detectDriftPointsModel, if_neg (by simp [envC8]), if_neg (by simp [envC8])]
  simp only [hpos]
  rw [mapExcept]
  have hm0 : measureAt envC8 "m" "s" 2 0 = .ok ⟨0, 0, 0⟩ := by
    rw [measureAt, detectAlignmentSegmentM]
    norm_num [envC8, hopLength]
  have hm1 : measureAt envC8 "m" "s" 2 1 = .error .decodeFailed := by
    rw [measureAt, detectAlignmentSegmentM]
    norm_num [envC8, hopLength]
  rw [hm0]
  simp only []
  rw [mapExcept, hm1]

/-- Claim C8, amended: a missing input aborts the drift scan with
`InputMissing`; a per-window load that succeeds with a buffer shorter
than `2 * hop_length` (which is how an empty or past-EOF range
manifests) is absorbed as a `{0, 0}` result so the scan continues (when
every window yields a result the scan returns ok); but a per-window
decode failure is not absorbed — the segment aligner and hence the scan
fail with `DecodeFailed`. -/
theorem claim8_error_absorption_amended (env : Env) (main sec : String)
    (w s t startMs endMs : ℚ) (yMain ySec : List ℚ) :
    (env.fileExists main = false →
      detectDriftPointsModel env main sec w s t = .error .inputMissing)
    ∧ (env.load main (startMs / 1000) ((endMs - startMs) / 1000) = .ok yMain →
        env.load sec (startMs / 1000) ((endMs - startMs) / 1000) = .ok ySec →
        env.fileExists main = true → env.fileExists sec = true →
        (yMain.length < 2 * hopLength ∨ ySec.length < 2 * hopLength) →
        detectAlignmentSegmentM env main sec startMs endMs = .ok ⟨0, 0⟩)
    ∧ (env.load main (startMs / 1000) ((endMs - startMs) / 1000) = .failed →
        env.fileExists main = true → env.fileExists sec = true →
        detectAlignmentSegmentM env main sec startMs endMs = .error .decodeFailed)
    ∧ (env.fileExists main = true → env.fileExists sec = true →
        (∀ p ∈ scanPositions (1000 * env.durationS main) w s,
          ∃ r, detectAlignmentSegmentM env main sec p (p + w) = .ok r) →
        ∃ resp, detectDriftPointsModel env main sec w s t = .ok resp) := by
  refine ⟨?_, ?_, ?_, ?_⟩
  · intro hm
    rw [detectDriftPointsModel, if_pos hm]
  · intro hlm hls hm hs hshort
    rw [detectAlignmentSegmentM, if_neg (by rw [hm]; simp), if_neg (by rw [hs]; simp)]
    simp only []
    rw [hlm, hls]
    simp only []
    rw [if_pos hshort]
  · intro hlm hm hs
    rw [detectAlignmentSegmentM, if_neg (by rw [hm]; simp), if_neg (by rw [hs]; simp)]
    simp only []
    rw [hlm]
    cases env.load sec (startMs / 1000) ((endMs - startMs) / 1000) <;> rfl
  · intro hm hs hall
    rw [detectDriftPointsModel, if_neg (by rw [hm]; simp), if_neg (by rw [hs]; simp)]
    simp only []
    have hall2 : ∀ p ∈ scanPositions (1000 * env.durationS main) w s,
        ∃ r, measureAt env main sec w p = .ok r := by
      intro p hp
      obtain ⟨r, hr⟩ := hall p hp
      exact ⟨⟨p, r.offset_ms, r.confidence⟩, by rw [measureAt, hr]⟩
    obtain ⟨ms, hms⟩ := mapExcept_ok_of_forall _ _ hall2
    rw [hms]
    simp only []
    split
    · exact ⟨_, rfl⟩
    · exact ⟨_, rfl⟩

/-- Witness for claim C8's amended theorem: a short-buffer window is
absorbed as `{0, 0}`. -/
theorem claim8_error_absorption_witness :
    detectAlignmentSegmentM envC8 "m" "s" 0 2 = .ok ⟨0, 0⟩ :=
  (claim8_error_absorption_amended envC8 "m" "s" 2 1 1 0 2 [] []).2.1
    (by norm_num [envC8]) (by norm_num [envC8]) rfl rfl (by norm_num [hopLength])

/-- Claim C9, counterexample: a secondary input that is not RIFF WAV
PCM s16le mono 22050 Hz (the `conformant` flag is false) is accepted by
`detect_alignment` and produces an ordinary result, not an
`UnsupportedFormat` rejection. -/
theorem claim9_counterexample :
    envN.conformant "s" = false ∧ detectAlignmentM envN "m" "s" = .ok ⟨0, 1 / 10⟩ := by
  constructor
  · rfl
  · have h1 : detectAlignmentM envN "m" "s" =
        .ok (detectAlignmentCore sampleRate hopLength [1] [1]) := rfl
    rw [h1]
    norm_num [detectAlignmentCore, sampleRate, hopLength, normalizeEnv, listMax, corrFull,
      getI, argmaxIdx, mean, List.range_succ, Finset.sum_range_succ]

/-- Claim C9, amended: the align operations perform no format check at
all — none of `detect_alignment`, `detect_alignment_segment` or
`detect_drift_points` ever fails with `UnsupportedFormat`, whatever the
input files contain; any decodable input is processed. -/
theorem claim9_no_format_rejection_amended (env : Env) (main sec : String)
    (startMs endMs w s t : ℚ) :
    isUnsupported (detectAlignmentM env main sec) = false
    ∧ isUnsupported (detectAlignmentSegmentM env main sec startMs endMs) = false
    ∧ isUnsupported (detectDriftPointsModel env main sec w s t) = false := by
  refine ⟨?_, segM_not_unsupported env main sec startMs endMs, ?_⟩
  · rw [detectAlignmentM]
    split
    · rfl
    · split
      · rfl
      · split
        · rfl
        · rfl
        · rfl
  · rw [detectDriftPointsModel]
    split
    · rfl
    · split
      · rfl
      · simp only []
        split
        · next e heq =>
          obtain ⟨p, _, hfp⟩ := mapExcept_error_mem _ _ e heq
          rw [measureAt] at hfp
          split at hfp
          · next e2 heq2 =>
            injection hfp with hfp
            subst hfp
            rcases segM_error_kind env main sec p (p + w) e2 heq2 with rfl | rfl <;> rfl
          · exact absurd hfp (by simp)
        · split
          · rfl
          · rfl

theorem planRec_error_iff : ∀ (segs : List AudioSegment) (c a sd : ℚ)
    (prev : AudioSegment) (b : ℚ),
    (planRec c a sd prev segs = .error (.planInfeasible b) ↔
      ((planCopies c a sd prev segs).find? fun tr =>
        decide (tr.2.2 ≤ tr.2.1)).map (fun tr => tr.1) = some b)
  | [], c, a, sd, prev, b => by
    rw [planRec, planCopies]
    split
    · next h => simp [List.find?, h]
    · next h => simp [List.find?, h]
  | curr :: rest, c, a, sd, prev, b => by
    rw [planRec, planCopies]
    simp only []
    split
    · next h =>
      rw [List.find?_cons_of_pos _ (by simpa using h)]
      simp
    · next h =>
      rw [List.find?_cons_of_neg _ (by simpa using h)]
      rw [← planRec_error_iff rest
        (if prev.offset_ms - curr.offset_ms < 0 then
          curr.start_time_ms - a - (prev.offset_ms - curr.offset_ms)
         else curr.start_time_ms - a)
        (a + (prev.offset_ms - curr.offset_ms)) sd curr b]
      cases hrec : planRec
        (if prev.offset_ms - curr.offset_ms < 0 then
          curr.start_time_ms - a - (prev.offset_ms - curr.offset_ms)
         else curr.start_time_ms - a)
        (a + (prev.offset_ms - curr.offset_ms)) sd curr rest with
      | error e => simp
      | ok tailOps => simp

/-- Claim C7: the compensation planner fails, and fails with
`PlanInfeasible` naming the offending boundary, exactly when some copy
range it would commit to has zero or negative duration after the cursor
advance — the reported boundary is the one tagging the first such copy
range; with fewer than two segments the trivial plan never fails. -/
theorem claim7_infeasible_iff (segs : List AudioSegment) (mainDur sd b : ℚ) :
    planEdit segs mainDur sd = .error (.planInfeasible b) ↔
      2 ≤ (sortSegs segs).length ∧
        ((plannedCopies segs mainDur sd).find? fun tr =>
          decide (tr.2.2 ≤ tr.2.1)).map (fun tr => tr.1) = some b := by
  rw [planEdit, plannedCopies]
  split
  · next heq => simp [heq]
  · next x heq => simp [heq]
  · next first next rest heq =>
    simp only [heq]
    rw [planRec_error_iff (next :: rest) 0 0 sd first b]
    simp

/-- Witness for claim C7, the spec's S6 shape: a 5000 ms trim demanded
at the 60 s boundary of a 63 s secondary leaves the tail copy range
`[65 000, 63 000)` empty, so the planner reports `PlanInfeasible` at
that tail boundary. -/
theorem claim7_infeasible_witness :
    planEdit [⟨0, 60000, 0, 1⟩, ⟨60000, 120000, 5000, 1⟩] 120000 63000 =
      .error (.planInfeasible 63000) := by
  rw [claim7_infeasible_iff]
  constructor
  · norm_num [sortSegs]
  · norm_num [plannedCopies, sortSegs, planCopies, List.find?]

theorem planRec_ok_total : ∀ (segs : List AudioSegment) (c a sd : ℚ)
    (prev : AudioSegment) (ops : List EditOp),
    planRec c a sd prev segs = .ok ops →
    renderedDurationMs ops = (sd - c) + prev.offset_ms - (segs.getLastD prev).offset_ms
  | [], c, a, sd, prev, ops => by
    rw [planRec]
    split
    · simp
    · intro h
      rw [Except.ok.injEq] at h
      subst h
      simp [renderedDurationMs, opDuration]
  | curr :: rest, c, a, sd, prev, ops => by
    rw [planRec]
    simp only []
    split
    · simp
    · next h =>
      cases hrec : planRec
        (if prev.offset_ms - curr.offset_ms < 0 then
          curr.start_time_ms - a - (prev.offset_ms - curr.offset_ms)
         else curr.start_time_ms - a)
        (a + (prev.offset_ms - curr.offset_ms)) sd curr rest with
      | error e => simp
      | ok tailOps =>
        intro hok
        rw [Except.ok.injEq] at hok
        subst hok
        have ih := planRec_ok_total rest _ _ sd curr tailOps hrec
        rw [List.getLastD_cons]
        rcases lt_trichotomy (prev.offset_ms - curr.offset_ms) 0 with hadj | hadj | hadj
        · rw [if_pos hadj] at ih
          rw [if_neg (by linarith)]
          simp only [renderedDurationMs, List.map_cons, List.map_append, List.sum_cons,
            List.sum_append, opDuration] at ih ⊢
          simp only [List.map_nil, List.sum_nil]
          linarith
        · rw [if_neg (by rw [hadj]; exact lt_irrefl 0)] at ih
          rw [if_neg (by rw [hadj]; exact lt_irrefl 0)]
          simp only [renderedDurationMs, List.map_cons, List.map_append, List.sum_cons,
            List.sum_append, opDuration] at ih ⊢
          simp only [List.map_nil, List.sum_nil]
          linarith
        · rw [if_neg (by linarith)] at ih
          rw [if_pos hadj]
          simp only [renderedDurationMs, List.map_cons, List.map_append, List.sum_cons,
            List.sum_append, opDuration, List.map_nil, List.sum_nil] at ih ⊢
          linarith

/-- Claim C1, counterexample: the spec's own S5 inputs — segments
`[0, 60 s) @ 0` and `[60 s, 120 s) @ -3000`, a 63 s secondary and a
120 s main — give a feasible plan
`[CopyRange(0, 60 000), Silence(3 000), CopyRange(60 000, 63 000)]`
whose rendered duration is 66 000 ms, not `main_duration_ms = 120 000`
within one 22 050 Hz sample. -/
theorem claim1_counterexample :
    planEdit [⟨0, 60000, 0, 1⟩, ⟨60000, 120000, -3000, 1⟩] 120000 63000 =
      .ok [.copyRange 0 60000, .silence 3000, .copyRange 60000 63000]
    ∧ ¬ |renderedDurationMs [.copyRange 0 60000, .silence 3000, .copyRange 60000 63000]
          - 120000| ≤ 1000 / 22050 := by
  constructor
  · norm_num [planEdit, sortSegs, planRec]
  · norm_num [renderedDurationMs, opDuration]

/-- Claim C1, amended: for a feasible plan built from two or more sorted
segments, the rendered output duration equals
`secondary_duration_ms + first.offset_ms - last.offset_ms` exactly — it
equals `main_duration_ms` only when the secondary's duration makes up
for the net offset change, which the planner does not enforce. -/
theorem claim1_total_duration (segs : List AudioSegment) (first next : AudioSegment)
    (rest : List AudioSegment) (mainDur sd : ℚ) (ops : List EditOp)
    (hsort : sortSegs segs = first :: next :: rest)
    (hok : planEdit segs mainDur sd = .ok ops) :
    renderedDurationMs ops =
      sd + first.offset_ms - ((next :: rest).getLastD first).offset_ms := by
  rw [planEdit, hsort] at hok
  rw [planRec_ok_total (next :: rest) 0 0 sd first ops hok]
  ring

/-- Witness for claim C1's amended theorem on the S5 plan:
`60 000 + 3 000 + 3 000 = 63 000 + 0 - (-3 000)`. -/
theorem claim1_total_duration_witness :
    renderedDurationMs [.copyRange 0 60000, .silence 3000, .copyRange 60000 63000] =
      63000 + (0 : ℚ) - (-3000) :=
  claim1_total_duration [⟨0, 60000, 0, 1⟩, ⟨60000, 120000, -3000, 1⟩]
    ⟨0, 60000, 0, 1⟩ ⟨60000, 120000, -3000, 1⟩ [] 120000 63000
    [.copyRange 0 60000, .silence 3000, .copyRange 60000 63000]
    (by norm_num [sortSegs])
    (by norm_num [planEdit, sortSegs, planRec])

end VAC
